import Mathlib

/-!
Verification of `cmd/detect/main.go` from vaikas/buildpackstuff.

The Go program scans candidate `.go` files for an exported function whose
signature is in a fixed catalog (`validFunctions`), and on success writes a
buildpack plan descriptor.  The definitions below are a shallow embedding of
that program: pure helpers (`strings.Replace` with n = 1, `strings.Split` on a
one-character separator, `filepath.Clean`) are translated to Lean functions on
`List Char` / `String`; the file-scanning loop in `main` is a function over the
per-file results of `detector.CheckFile`; file I/O is explicit state passing
(`Option String` for a file's contents, `Bool` flags for open/write success).
-/

namespace BuildpackDetect

/-- `detect.FunctionArg` as used by `main.go`: an import path, a type name and
a pointer marker.  Omitted fields of Go composite literals take the zero
value, mirrored here by default field values. -/
structure FunctionArg where
  ImportPath : String := ""
  Name : String := ""
  Pointer : Bool := false
deriving DecidableEq, Repr

/-- `detect.FunctionSignature`: ordered input and output argument lists. -/
structure FunctionSignature where
  In : List FunctionArg := []
  Out : List FunctionArg := []
deriving DecidableEq, Repr

/-- `detect.FunctionDetails`: the result of a successful detection. -/
structure FunctionDetails where
  Name : String
  Package : String
  Signature : FunctionSignature
deriving DecidableEq, Repr

/-- `ceImport` constant from `main.go`. -/
def ceImport : String := "github.com/cloudevents/sdk-go/v2"

/-- `ceProtocolImport` constant from `main.go`. -/
def ceProtocolImport : String := "github.com/cloudevents/sdk-go/v2/protocol"

/-- `contextImport` constant from `main.go`. -/
def contextImport : String := "context"

/-- The `validFunctions` catalog from `main.go`, entry for entry in source
order.  It is a package-level value built once at program start and never
written afterwards; in this embedding it is a constant. -/
def validFunctions : List FunctionSignature := [
  { In := [{ ImportPath := ceImport, Name := "Event" }] },
  { In := [{ ImportPath := ceImport, Name := "Event" }], Out := [{ ImportPath := ceProtocolImport, Name := "Result" }] },
  { In := [{ ImportPath := ceImport, Name := "Event" }], Out := [{ Name := "error" }] },
  { In := [{ ImportPath := contextImport, Name := "Context" }, { ImportPath := ceImport, Name := "Event" }] },
  { In := [{ ImportPath := contextImport, Name := "Context" }, { ImportPath := ceImport, Name := "Event" }], Out := [{ ImportPath := ceProtocolImport, Name := "Result" }] },
  { In := [{ ImportPath := contextImport, Name := "Context" }, { ImportPath := ceImport, Name := "Event" }], Out := [{ Name := "error" }] },
  { In := [{ ImportPath := ceImport, Name := "Event" }], Out := [{ ImportPath := ceImport, Name := "Event", Pointer := true }] },
  { In := [{ ImportPath := ceImport, Name := "Event" }], Out := [{ ImportPath := ceImport, Name := "Event", Pointer := true }, { ImportPath := ceProtocolImport, Name := "Result" }] },
  { In := [{ ImportPath := ceImport, Name := "Event" }], Out := [{ ImportPath := ceImport, Name := "Event", Pointer := true }, { Name := "error" }] },
  { In := [{ ImportPath := contextImport, Name := "Context" }, { ImportPath := ceImport, Name := "Event" }], Out := [{ ImportPath := ceImport, Name := "Event", Pointer := true }] },
  { In := [{ ImportPath := contextImport, Name := "Context" }, { ImportPath := ceImport, Name := "Event" }], Out := [{ ImportPath := ceImport, Name := "Event", Pointer := true }, { ImportPath := ceProtocolImport, Name := "Result" }] },
  { In := [{ ImportPath := contextImport, Name := "Context" }, { ImportPath := ceImport, Name := "Event" }], Out := [{ ImportPath := ceImport, Name := "Event", Pointer := true }, { Name := "error" }] }
]

/-- The canonical `event` argument of the spec: by-value
`github.com/cloudevents/sdk-go/v2`.`Event`. -/
def eventArg : FunctionArg := { ImportPath := ceImport, Name := "Event" }

/-- The canonical `context` argument of the spec: by-value `context`.`Context`. -/
def contextArg : FunctionArg := { ImportPath := contextImport, Name := "Context" }

/-- The canonical `result` argument of the spec: by-value
`github.com/cloudevents/sdk-go/v2/protocol`.`Result`. -/
def resultArg : FunctionArg := { ImportPath := ceProtocolImport, Name := "Result" }

/-- The canonical `error` argument of the spec: the builtin `error` type
(empty import path). -/
def errorArg : FunctionArg := { Name := "error" }

/-- The canonical `eventPtr` argument of the spec: by-reference
`github.com/cloudevents/sdk-go/v2`.`Event`. -/
def eventPtrArg : FunctionArg := { ImportPath := ceImport, Name := "Event", Pointer := true }

/-- The raw plan-file template constant `planFileFormat` from `main.go`
(a Go raw-string literal: it begins and ends with a newline). -/
def planFileFormat : String :=
  "\n[[provides]]\nname = \"ce-go-function\"\n[[requires]]\nname = \"ce-go-function\"\n[requires.metadata]\npackage = \"PACKAGE\"\nfunction = \"CE_GO_FUNCTION\"\nprotocol = \"CE_PROTOCOL\"\n"

/-- `strings.Replace(s, old, new, 1)` on character lists: replace the first
occurrence of `old` (for empty `old`, Go matches at the beginning of the
string). -/
def replaceFirstAux (old new : List Char) : List Char → List Char
  | [] => if old.isPrefixOf ([] : List Char) then new else []
  | c :: rest =>
      if old.isPrefixOf (c :: rest) then new ++ (c :: rest).drop old.length
      else c :: replaceFirstAux old new rest

/-- `strings.Replace(s, old, new, 1)`. -/
def replaceFirst (s old new : String) : String :=
  String.mk (replaceFirstAux old.data new.data s.data)

/-- The descriptor text produced by `writePlan`: the template with the first
occurrence of `PACKAGE`, then `CE_GO_FUNCTION`, then `CE_PROTOCOL` replaced. -/
def renderedPlan (protocol : String) (details : FunctionDetails) : String :=
  replaceFirst
    (replaceFirst (replaceFirst planFileFormat "PACKAGE" details.Package)
      "CE_GO_FUNCTION" details.Name)
    "CE_PROTOCOL" protocol

/-- How a call to `writePlan` ends: either the process terminates
(`printSupportedFunctionsAndExit` prints the supported-signatures help text
and calls `os.Exit` with the given code), or `writePlan` returns `err` to its
caller, the plan file now holding `contents`. -/
inductive WritePlanOutcome where
  | exited (code : Nat)
  | returned (err : Option String) (contents : String)
deriving DecidableEq, Repr

/-- `writePlan` from `main.go`.  `openOk` models whether
`os.OpenFile(planFileName, O_APPEND|O_CREATE|O_WRONLY, 0644)` succeeds and
`writeOk` whether `WriteString` succeeds; `existing` is the plan file's
current contents (`none` if the file does not exist yet: `O_CREATE` starts it
empty).  On either failure the Go code calls `printSupportedFunctionsAndExit`
(exit code 100) instead of returning an error; on success the rendered
descriptor is appended (`O_APPEND`) after the existing contents and `nil` is
returned. -/
def writePlan (openOk writeOk : Bool) (existing : Option String)
    (protocol : String) (details : FunctionDetails) : WritePlanOutcome :=
  if !openOk then .exited 100
  else if !writeOk then .exited 100
  else .returned none ((existing.getD "") ++ renderedPlan protocol details)

/-- Whether a `writePlan` outcome hands a non-nil error back to `main`
(the condition of `main`'s `failed to write the build plan` branch). -/
def returnsError : WritePlanOutcome → Bool
  | .returned (some _) _ => true
  | _ => false

/-- Substring test on character lists (used only to state facts about the
template's fixed text). -/
def containsSubAux (needle : List Char) : List Char → Bool
  | [] => needle.isPrefixOf ([] : List Char)
  | c :: rest => needle.isPrefixOf (c :: rest) || containsSubAux needle rest

/-- `sub` occurs as a contiguous substring of `s`. -/
def containsSub (s sub : String) : Bool := containsSubAux sub.data s.data

/-- `os.IsPathSeparator` on unix: the separator is `/`. -/
def isPathSep (c : Char) : Bool := c = '/'

/-- The backup step of `filepath.Clean`'s `..` case: starting from write
position `w` (`out.w` after the initial decrement), move left while
`w > dotdot` and the character at `w` is not a separator; returns the final
write position. -/
def backupW (out : List Char) (dotdot : Nat) : Nat → Nat
  | 0 => 0
  | w + 1 =>
      if decide (dotdot < w + 1) && !isPathSep (out.getD (w + 1) ' ') then
        backupW out dotdot w
      else w + 1

/-- The main loop of `filepath.Clean` (unix, so `FromSlash` is the identity
and the volume name is empty).  `rest` is the unread remainder of the path,
`out` the output buffer, `dotdot` the index up to which `..` may not back up.
`fuel` only bounds the recursion; every iteration of the Go loop consumes at
least one character, so `fuel = rest.length` never runs out. -/
def cleanLoop (rooted : Bool) : Nat → List Char → List Char → Nat → List Char
  | 0, _, out, _ => out
  | _ + 1, [], out, _ => out
  | fuel + 1, c :: rest, out, dotdot =>
      if isPathSep c then
        cleanLoop rooted fuel rest out dotdot
      else if c = '.' && (rest.isEmpty || isPathSep (rest.getD 0 ' ')) then
        cleanLoop rooted fuel rest out dotdot
      else if c = '.' && rest.getD 0 ' ' = '.' &&
              (rest.length = 1 || isPathSep (rest.getD 1 ' ')) then
        if decide (dotdot < out.length) then
          cleanLoop rooted fuel (rest.drop 1)
            (out.take (backupW out dotdot (out.length - 1))) dotdot
        else if !rooted then
          let out2 := (if decide (0 < out.length) then out ++ ['/'] else out) ++ ['.', '.']
          cleanLoop rooted fuel (rest.drop 1) out2 out2.length
        else
          cleanLoop rooted fuel (rest.drop 1) out dotdot
      else
        let sep : List Char :=
          if (rooted && decide (out.length ≠ 1)) || (!rooted && decide (out.length ≠ 0))
          then ['/'] else []
        cleanLoop rooted fuel (rest.dropWhile (fun x => !isPathSep x))
          (out ++ sep ++ (c :: rest.takeWhile (fun x => !isPathSep x))) dotdot

/-- `filepath.Clean` from Go's standard library, unix rules (empty volume
name, `/` separator, `FromSlash` the identity). -/
def filepathClean (path : String) : String :=
  match path.data with
  | [] => "."
  | c :: cs =>
      let rooted := isPathSep c
      let res :=
        if rooted then cleanLoop rooted (cs.length) cs ['/'] 1
        else cleanLoop rooted (cs.length + 1) (c :: cs) [] 0
      if res.isEmpty then "." else String.mk res

/-- `strings.HasSuffix`. -/
def goHasSuffix (s suffix : String) : Bool := suffix.data.isSuffixOf s.data

/-- The normalization of `CE_GO_PACKAGE` in `main`: append a trailing `/`
when the configured value does not already end in one. -/
def goPackageWithSlash (cegoPackage : String) : String :=
  if !goHasSuffix cegoPackage "/" then cegoPackage ++ "/" else cegoPackage

/-- `fullGoPackage` as computed in `main`: the module name from `go.mod`,
extended with `"/" + filepath.Clean(goPackage)` when the slash-normalized
package subpath differs from `./`. -/
def fullGoPackage (moduleName cegoPackage : String) : String :=
  let goPackage := goPackageWithSlash cegoPackage
  if goPackage ≠ "./" then moduleName ++ "/" ++ filepathClean goPackage
  else moduleName

/-- What happened for one candidate file inside `main`'s loop:
`ioutil.ReadFile` failed (`readErr`), `detector.CheckFile` returned an error
(`checkErr`), it returned `nil` details (`noMatch`), or it returned a
non-nil `*FunctionDetails` (`found`). -/
inductive CheckResult where
  | readErr
  | checkErr
  | noMatch
  | found (deets : FunctionDetails)
deriving DecidableEq, Repr

/-- How the process run ends.  `exitPlan contents` is the success path: the
plan descriptor was written (the plan file now holds `contents`) and the
process calls `os.Exit(0)`.  `exitCheckError` is `os.Exit(100)` after a
`CheckFile` error.  `exitHelp` is `printSupportedFunctionsAndExit`: the
supported-signatures help text is printed, no plan is written by that path,
and the process exits with code 100. -/
inductive RunOutcome where
  | exitPlan (contents : String)
  | exitCheckError
  | exitHelp
deriving DecidableEq, Repr

/-- The name-filter test in `main`:
`goFunction == "" || goFunction == deets.Name`. -/
def filterAccepts (goFunction name : String) : Bool :=
  goFunction == "" || goFunction == name

/-- The candidate-file loop of `main`, as a function of the per-file results,
returning the run outcome together with the number of candidate files
examined.  `goFunction`, `fullPkg`, `goProtocol` are the configured name
filter, the computed full package value and the protocol; `existing`,
`openOk`, `writeOk` parameterize `writePlan`'s file I/O.  After the loop,
`main` calls `printSupportedFunctionsAndExit`. -/
def mainLoop (goFunction fullPkg goProtocol : String) (existing : Option String)
    (openOk writeOk : Bool) : List CheckResult → RunOutcome × Nat
  | [] => (.exitHelp, 0)
  | .readErr :: _ => (.exitHelp, 1)
  | .checkErr :: _ => (.exitCheckError, 1)
  | .noMatch :: rest =>
      let r := mainLoop goFunction fullPkg goProtocol existing openOk writeOk rest
      (r.1, r.2 + 1)
  | .found deets :: rest =>
      if filterAccepts goFunction deets.Name then
        match writePlan openOk writeOk existing goProtocol
            { deets with Package := fullPkg } with
        | .exited _ => (.exitHelp, 1)
        | .returned _ contents => (.exitPlan contents, 1)
      else
        let r := mainLoop goFunction fullPkg goProtocol existing openOk writeOk rest
        (r.1, r.2 + 1)

/-- `main`'s pipeline from configuration to the loop: the package value is
computed from the module name and `CE_GO_PACKAGE` before the loop starts. -/
def runDetect (moduleName cegoPackage goFunction goProtocol : String)
    (existing : Option String) (openOk writeOk : Bool)
    (files : List CheckResult) : RunOutcome × Nat :=
  mainLoop goFunction (fullGoPackage moduleName cegoPackage) goProtocol
    existing openOk writeOk files

/-- A candidate file on which `main`'s loop just moves on to the next file:
`CheckFile` returned nil details, or it returned details whose name the
filter rejects. -/
def advances (goFunction : String) : CheckResult → Bool
  | .noMatch => true
  | .found deets => !filterAccepts goFunction deets.Name
  | _ => false

/-- `strings.Split(s, sep)` for a one-character separator `sepc`,
accumulating the current field in reverse. -/
def splitByAux (p : Char → Bool) : List Char → List Char → List String
  | [], cur => [String.mk cur.reverse]
  | c :: rest, cur =>
      if p c then String.mk cur.reverse :: splitByAux p rest []
      else splitByAux p rest (c :: cur)

/-- `strings.Split(s, " ")` as used by `readModuleName`. -/
def splitOnSpace (s : String) : List String :=
  splitByAux (fun c => c = ' ') s.data []

/-- The per-line test of `readModuleName`'s scanner loop:
`len(pieces) >= 2 && pieces[0] == "module"` for
`pieces := strings.Split(line, " ")`. -/
def isModuleLine (line : String) : Bool :=
  decide (2 ≤ (splitOnSpace line).length) && ((splitOnSpace line).getD 0 "" == "module")

/-- The scanner loop of `readModuleName`: return `pieces[1]` of the first
line passing `isModuleLine`; `""` when the file ends without one. -/
def readModLoop : List String → String
  | [] => ""
  | line :: rest =>
      if isModuleLine line then (splitOnSpace line).getD 1 ""
      else readModLoop rest

/-- `readModuleName` from `main.go`: `none` models `os.Open("./go.mod")`
failing, in which case `("", err)` is returned (the `Bool` component records
whether the returned error is non-nil); otherwise the file's lines are
scanned and the error is nil. -/
def readModuleName (file : Option (List String)) : String × Bool :=
  match file with
  | none => ("", true)
  | some lines => (readModLoop lines, false)

/-- The number of whitespace-separated tokens reading of a line, following
the claim's words (not the source): split on whitespace characters and drop
empty fields. -/
def wsFields (s : String) : List String :=
  (splitByAux (fun c => c.isWhitespace) s.data []).filter (fun t => !(t == ""))

end BuildpackDetect

namespace BuildpackDetect

/-- C1: the catalog has exactly twelve entries; every entry's `In` is empty,
`[event]`, or `[context, event]`, and every entry's `Out` is one of: empty,
`[result]`, `[error]`, `[eventPtr]`, `[eventPtr, result]`,
`[eventPtr, error]`, with the canonical arguments as fixed by `main.go`'s
import-path constants.  (The catalog is a constant of the embedding, built
once and never mutated, matching the Go package-level `var` that is
initialized at startup and never written again.) -/
theorem c1_catalog_shape :
    validFunctions.length = 12 ∧
    ∀ s ∈ validFunctions,
      (s.In = [] ∨ s.In = [eventArg] ∨ s.In = [contextArg, eventArg]) ∧
      (s.Out = [] ∨ s.Out = [resultArg] ∨ s.Out = [errorArg] ∨
       s.Out = [eventPtrArg] ∨ s.Out = [eventPtrArg, resultArg] ∨
       s.Out = [eventPtrArg, errorArg]) := by
  decide

/-- Witness for C1 at a concrete catalog member: the first catalog entry
`func(event.Event)` is in the catalog and satisfies the shape property. -/
theorem c1_catalog_shape_witness :
    (FunctionSignature.mk [eventArg] [] ∈ validFunctions) ∧
    ((FunctionSignature.mk [eventArg] []).In = [] ∨
     (FunctionSignature.mk [eventArg] []).In = [eventArg] ∨
     (FunctionSignature.mk [eventArg] []).In = [contextArg, eventArg]) ∧
    ((FunctionSignature.mk [eventArg] []).Out = [] ∨
     (FunctionSignature.mk [eventArg] []).Out = [resultArg] ∨
     (FunctionSignature.mk [eventArg] []).Out = [errorArg] ∨
     (FunctionSignature.mk [eventArg] []).Out = [eventPtrArg] ∨
     (FunctionSignature.mk [eventArg] []).Out = [eventPtrArg, resultArg] ∨
     (FunctionSignature.mk [eventArg] []).Out = [eventPtrArg, errorArg]) :=
  ⟨by decide, c1_catalog_shape.2 (FunctionSignature.mk [eventArg] []) (by decide)⟩

/-- C2: when `CheckFile` returns non-nil details for a candidate file, the
run accepts them (writes the rendered plan descriptor and exits 0, i.e.
`exitPlan`) iff the name filter is empty or equals the detected name; when
the filter rejects the name, the loop behaves on the remaining files exactly
as if this file were not there (one more file examined, nothing written for
it). -/
theorem c2_name_filter_gate (goFunction fullPkg proto : String)
    (existing : Option String) (deets : FunctionDetails)
    (rest : List CheckResult) :
    (filterAccepts goFunction deets.Name = true ↔
      (goFunction = "" ∨ goFunction = deets.Name)) ∧
    (filterAccepts goFunction deets.Name = true →
      mainLoop goFunction fullPkg proto existing true true (.found deets :: rest)
        = (.exitPlan ((existing.getD "") ++
            renderedPlan proto { deets with Package := fullPkg }), 1)) ∧
    (filterAccepts goFunction deets.Name = false →
      mainLoop goFunction fullPkg proto existing true true (.found deets :: rest)
        = ((mainLoop goFunction fullPkg proto existing true true rest).1,
           (mainLoop goFunction fullPkg proto existing true true rest).2 + 1)) := by
  refine ⟨?_, ?_, ?_⟩
  · simp [filterAccepts]
  · intro h
    simp [mainLoop, h, writePlan]
  · intro h
    simp [mainLoop, h]

/-- Witness for C2: with an empty filter, a found `Receiver` is accepted and
the plan is written. -/
theorem c2_name_filter_gate_witness :
    mainLoop "" "m" "http" none true true
        [.found (FunctionDetails.mk "Receiver" "p" {})]
      = (.exitPlan ((Option.getD none "") ++
          renderedPlan "http"
            { FunctionDetails.mk "Receiver" "p" {} with Package := "m" }), 1) :=
  (c2_name_filter_gate "" "m" "http" none (FunctionDetails.mk "Receiver" "p" {})
    []).2.1 rfl

/-- C3 counterexample: the first candidate file yields a non-nil, non-error
`CheckFile` result (a found function named `A`), yet with name filter `B`
the loop goes on and examines the second file as well (two files examined),
so iteration does not stop at the first non-nil result. -/
theorem c3_counterexample :
    (mainLoop "B" "m" "http" none true true
        [.found (FunctionDetails.mk "A" "p" {}), .noMatch]).2 = 2 ∧
    1 < (mainLoop "B" "m" "http" none true true
        [.found (FunctionDetails.mk "A" "p" {}), .noMatch]).2 := by
  decide

/-- C3 amended: file iteration stops at the first file whose non-nil
`CheckFile` result passes the name filter: if such a file sits after `pre`,
at most `pre.length + 1` candidate files are ever examined. -/
theorem c3_stop_at_first_accepted (goFunction fullPkg proto : String)
    (existing : Option String) (openOk writeOk : Bool)
    (pre post : List CheckResult) (deets : FunctionDetails)
    (h : filterAccepts goFunction deets.Name = true) :
    (mainLoop goFunction fullPkg proto existing openOk writeOk
        (pre ++ .found deets :: post)).2 ≤ pre.length + 1 := by
  induction pre with
  | nil =>
      simp only [List.nil_append, mainLoop, h, if_true]
      split <;> simp
  | cons r pre ih =>
      cases r with
      | readErr => simp [mainLoop]
      | checkErr => simp [mainLoop]
      | noMatch =>
          simp only [List.cons_append, mainLoop, List.length_cons, List.append_eq]
          simp only [List.append_eq] at ih
          omega
      | found d =>
          by_cases hd : filterAccepts goFunction d.Name = true
          · simp only [List.cons_append, mainLoop, hd, if_true, List.length_cons]
            split <;> simp
          · simp only [List.cons_append, mainLoop, hd, Bool.false_eq_true, if_false,
              List.length_cons, List.append_eq]
            simp only [List.append_eq] at ih
            omega

/-- Witness for C3's amended theorem: an accepted file at position 1 bounds
the number of examined files by 2. -/
theorem c3_stop_at_first_accepted_witness :
    (mainLoop "" "m" "http" none true true
        ([.noMatch] ++ .found (FunctionDetails.mk "F" "p" {}) :: [.noMatch])).2
      ≤ [CheckResult.noMatch].length + 1 :=
  c3_stop_at_first_accepted "" "m" "http" none true true [.noMatch] [.noMatch]
    (FunctionDetails.mk "F" "p" {}) rfl

/-- C4: when every file before it merely advances the loop, a file on which
`CheckFile` errors aborts the whole run right there: the outcome is
`exitCheckError` (`os.Exit(100)`, which is not `exitPlan`, so no plan
descriptor is written) and exactly the files up to and including the bad one
are examined — no later candidate file is touched. -/
theorem c4_check_error_aborts (goFunction fullPkg proto : String)
    (existing : Option String) (openOk writeOk : Bool)
    (pre post : List CheckResult)
    (h : ∀ r ∈ pre, advances goFunction r = true) :
    mainLoop goFunction fullPkg proto existing openOk writeOk
        (pre ++ .checkErr :: post) = (.exitCheckError, pre.length + 1) := by
  induction pre with
  | nil => simp [mainLoop]
  | cons r pre ih =>
      have hr : advances goFunction r = true := h r (by simp)
      have hrest : ∀ x ∈ pre, advances goFunction x = true :=
        fun x hx => h x (by simp [hx])
      cases r with
      | readErr => simp [advances] at hr
      | checkErr => simp [advances] at hr
      | noMatch =>
          simp only [List.cons_append, mainLoop, List.append_eq, ih hrest,
            List.length_cons]
      | found d =>
          have hd : filterAccepts goFunction d.Name = false := by
            simpa [advances] using hr
          simp only [List.cons_append, mainLoop, hd, Bool.false_eq_true, if_false,
            List.append_eq, ih hrest, List.length_cons]

/-- Witness for C4: a non-matching file followed by a `CheckFile` error and a
would-be match aborts after two files with `exitCheckError`. -/
theorem c4_check_error_aborts_witness :
    mainLoop "" "m" "http" none true true
        ([.noMatch] ++ .checkErr :: [.found (FunctionDetails.mk "F" "p" {})])
      = (.exitCheckError, [CheckResult.noMatch].length + 1) :=
  c4_check_error_aborts "" "m" "http" none true true [.noMatch]
    [.found (FunctionDetails.mk "F" "p" {})] (by decide)

/-- C5: a file whose `CheckFile` result is nil details, or found details the
name filter rejects, only advances the loop (the run on `r :: rest` equals
the run on `rest` with one more file examined); and when every candidate
file is of that kind, the run ends in `exitHelp`: no plan descriptor is
written, the supported-signatures help text is printed, and the process
exits with code 100, after examining all the files. -/
theorem c5_negative_outcome_advances (goFunction fullPkg proto : String)
    (existing : Option String) (openOk writeOk : Bool) :
    (∀ r rest, advances goFunction r = true →
      mainLoop goFunction fullPkg proto existing openOk writeOk (r :: rest)
        = ((mainLoop goFunction fullPkg proto existing openOk writeOk rest).1,
           (mainLoop goFunction fullPkg proto existing openOk writeOk rest).2 + 1)) ∧
    (∀ files, (∀ r ∈ files, advances goFunction r = true) →
      mainLoop goFunction fullPkg proto existing openOk writeOk files
        = (.exitHelp, files.length)) := by
  have step : ∀ r rest, advances goFunction r = true →
      mainLoop goFunction fullPkg proto existing openOk writeOk (r :: rest)
        = ((mainLoop goFunction fullPkg proto existing openOk writeOk rest).1,
           (mainLoop goFunction fullPkg proto existing openOk writeOk rest).2 + 1) := by
    intro r rest hr
    cases r with
    | readErr => simp [advances] at hr
    | checkErr => simp [advances] at hr
    | noMatch => simp [mainLoop]
    | found d =>
        have hd : filterAccepts goFunction d.Name = false := by
          simpa [advances] using hr
        simp [mainLoop, hd]
  refine ⟨step, ?_⟩
  intro files hall
  induction files with
  | nil => simp [mainLoop]
  | cons r rest ih =>
      have hr : advances goFunction r = true := hall r (by simp)
      have hrest : ∀ x ∈ rest, advances goFunction x = true :=
        fun x hx => hall x (by simp [hx])
      rw [step r rest hr, ih hrest]
      simp

/-- Witness for C5: a batch of a nil-details file and a filter-rejected file
ends in the help-and-exit-100 outcome with both files examined. -/
theorem c5_negative_outcome_advances_witness :
    mainLoop "B" "m" "http" none true true
        [.noMatch, .found (FunctionDetails.mk "A" "p" {})]
      = (.exitHelp, [CheckResult.noMatch,
          .found (FunctionDetails.mk "A" "p" {})].length) :=
  (c5_negative_outcome_advances "B" "m" "http" none true true).2
    [.noMatch, .found (FunctionDetails.mk "A" "p" {})] (by decide)

/-- Characters of a concatenation of two strings. -/
theorem data_append_eq (a b : String) : (a ++ b).data = a.data ++ b.data := by
  cases a
  cases b
  rfl

/-- The empty string is a left identity of string concatenation. -/
theorem empty_append_eq (s : String) : "" ++ s = s := by
  cases s
  rfl

/-- Taking the length of the left operand out of a concatenation returns it. -/
theorem take_len_append (a b : List Char) : (a ++ b).take a.length = a := by
  induction a with
  | nil => simp
  | cons c a ih => simp [ih]

/-- Dropping the length of the left operand out of a concatenation returns
the right operand. -/
theorem drop_len_append (a b : List Char) : (a ++ b).drop a.length = b := by
  induction a with
  | nil => simp
  | cons c a ih => simp [ih]

/-- C6: on an accepted detection, the plan carries the package value computed
from `go.mod`'s module name and `CE_GO_PACKAGE`, not the package detection
reported: the run's outcome is the plan rendered with
`Package := fullGoPackage moduleName cegoPackage`, that value is the module
name alone when the slash-normalized subpath is `./` and otherwise the
module name, a `/` and the `filepath.Clean`-ed subpath, and the outcome is
unchanged under any value of the detected details' `Package` field. -/
theorem c6_package_combination (moduleName cegoPackage goFunction proto : String)
    (existing : Option String) (deets : FunctionDetails)
    (rest : List CheckResult)
    (h : filterAccepts goFunction deets.Name = true) :
    (runDetect moduleName cegoPackage goFunction proto existing true true
        (.found deets :: rest)).1
      = .exitPlan ((existing.getD "") ++
          renderedPlan proto
            { deets with Package := fullGoPackage moduleName cegoPackage }) ∧
    (goPackageWithSlash cegoPackage = "./" →
      fullGoPackage moduleName cegoPackage = moduleName) ∧
    (goPackageWithSlash cegoPackage ≠ "./" →
      fullGoPackage moduleName cegoPackage
        = moduleName ++ "/" ++ filepathClean (goPackageWithSlash cegoPackage)) ∧
    (∀ p, runDetect moduleName cegoPackage goFunction proto existing true true
            (.found { deets with Package := p } :: rest)
          = runDetect moduleName cegoPackage goFunction proto existing true true
              (.found deets :: rest)) := by
  obtain ⟨nm, pk, sg⟩ := deets
  refine ⟨?_, ?_, ?_, ?_⟩
  · simp only [filterAccepts] at h
    simp [runDetect, mainLoop, h, writePlan, filterAccepts]
  · intro h2
    simp [fullGoPackage, h2]
  · intro h2
    simp [fullGoPackage, h2]
  · intro p
    simp only [filterAccepts] at h
    simp [runDetect, mainLoop, h, writePlan, filterAccepts]

/-- Witness for C6: module `example.com/mod` with subpath `sub` yields a plan
for package `example.com/mod/sub` (the slash-normalized subpath `sub/` is
cleaned to `sub`), regardless of the detected package `p`. -/
theorem c6_package_combination_witness :
    (runDetect "example.com/mod" "sub" "" "http" none true true
        [.found (FunctionDetails.mk "Receiver" "p" {})]).1
      = .exitPlan ((Option.getD none "") ++
          renderedPlan "http"
            { FunctionDetails.mk "Receiver" "p" {} with
                Package := fullGoPackage "example.com/mod" "sub" }) ∧
    fullGoPackage "example.com/mod" "sub" = "example.com/mod/sub" :=
  ⟨(c6_package_combination "example.com/mod" "sub" "" "http" none
      (FunctionDetails.mk "Receiver" "p" {}) [] (by decide)).1, by decide⟩

set_option maxRecDepth 40000 in
/-- C7: on an accepted detection the content written to the plan file is the
`planFileFormat` template — which carries the capability name
`ce-go-function` in both its `[[provides]]` and `[[requires]]` entries —
with the first occurrence of `PACKAGE` replaced by the final package value,
then the first occurrence of `CE_GO_FUNCTION` by the detected function name,
then the first occurrence of `CE_PROTOCOL` by the caller-supplied protocol
string, passed through uninterpreted; fully evaluated on a concrete input in
the last conjunct. -/
theorem c7_plan_template (goFunction fullPkg proto : String)
    (existing : Option String) (deets : FunctionDetails)
    (rest : List CheckResult)
    (h : filterAccepts goFunction deets.Name = true) :
    (mainLoop goFunction fullPkg proto existing true true
        (.found deets :: rest)).1
      = .exitPlan ((existing.getD "") ++
          replaceFirst
            (replaceFirst (replaceFirst planFileFormat "PACKAGE" fullPkg)
              "CE_GO_FUNCTION" deets.Name)
            "CE_PROTOCOL" proto) ∧
    containsSub planFileFormat "[[provides]]\nname = \"ce-go-function\"" = true ∧
    containsSub planFileFormat "[[requires]]\nname = \"ce-go-function\"" = true ∧
    renderedPlan "http" (FunctionDetails.mk "Receiver" "example.com/mod" {})
      = "\n[[provides]]\nname = \"ce-go-function\"\n[[requires]]\nname = \"ce-go-function\"\n[requires.metadata]\npackage = \"example.com/mod\"\nfunction = \"Receiver\"\nprotocol = \"http\"\n" := by
  obtain ⟨nm, pk, sg⟩ := deets
  refine ⟨?_, by decide, by decide, by decide⟩
  simp only [filterAccepts] at h
  simp [mainLoop, h, writePlan, renderedPlan, filterAccepts]

/-- Witness for C7: concrete accepted detection produces the plan rendered by
the three placeholder substitutions. -/
theorem c7_plan_template_witness :
    (mainLoop "" "m" "http" none true true
        [.found (FunctionDetails.mk "Receiver" "p" {})]).1
      = .exitPlan ((Option.getD none "") ++
          replaceFirst
            (replaceFirst (replaceFirst planFileFormat "PACKAGE" "m")
              "CE_GO_FUNCTION" "Receiver")
            "CE_PROTOCOL" "http") :=
  (c7_plan_template "" "m" "http" none (FunctionDetails.mk "Receiver" "p" {})
    [] (by decide)).1

/-- C8: `writePlan` opens the plan file with `O_APPEND|O_CREATE|O_WRONLY`,
so on success the prior contents survive as an unchanged prefix and the
rendered descriptor is appended after them (and a missing file starts
empty): the first `prior.length` characters of the new contents are exactly
the prior contents and the rest is exactly the rendered block. -/
theorem c8_append_preserves_prior (prior proto : String)
    (deets : FunctionDetails) :
    writePlan true true (some prior) proto deets
      = .returned none (prior ++ renderedPlan proto deets) ∧
    ((prior ++ renderedPlan proto deets).data.take prior.data.length
      = prior.data) ∧
    ((prior ++ renderedPlan proto deets).data.drop prior.data.length
      = (renderedPlan proto deets).data) ∧
    writePlan true true none proto deets
      = .returned none (renderedPlan proto deets) := by
  refine ⟨rfl, ?_, ?_, ?_⟩
  · rw [data_append_eq]
    exact take_len_append _ _
  · rw [data_append_eq]
    exact drop_len_append _ _
  · show WritePlanOutcome.returned none ("" ++ renderedPlan proto deets)
      = WritePlanOutcome.returned none (renderedPlan proto deets)
    rw [empty_append_eq]

/-- Lines that fail `readModuleName`'s per-line test are skipped by the
scanner loop. -/
theorem readModLoop_append_of_none (xs ys : List String)
    (hxs : ∀ l ∈ xs, isModuleLine l = false) :
    readModLoop (xs ++ ys) = readModLoop ys := by
  induction xs with
  | nil => rfl
  | cons x xs ih =>
      have hx : isModuleLine x = false := hxs x (by simp)
      have hxs' : ∀ l ∈ xs, isModuleLine l = false :=
        fun l hl => hxs l (by simp [hl])
      simp [readModLoop, hx, ih hxs']

/-- A file with no line passing the per-line test scans to the empty string. -/
theorem readModLoop_none (xs : List String)
    (hxs : ∀ l ∈ xs, isModuleLine l = false) :
    readModLoop xs = "" := by
  simpa using readModLoop_append_of_none xs [] hxs

/-- C9 counterexample: on the line `module  foo` (two spaces) the code
returns the empty module name — splitting on single spaces gives
`[module, (empty), foo]` and `pieces[1]` is the empty field — while the
claim's whitespace-separated reading of the same line has second token
`foo`; so `readModuleName` does not return the second whitespace-separated
token. -/
theorem c9_counterexample :
    readModuleName (some ["module  foo"]) = ("", false) ∧
    wsFields "module  foo" = ["module", "foo"] ∧
    splitOnSpace "module  foo" = ["module", "", "foo"] ∧
    ((readModuleName (some ["module  foo"])).1 == "foo") = false := by
  decide

/-- C9 amended: `readModuleName` returns `pieces[1]` — the second field of
the first line whose split on single space characters has at least two
fields and first field `module` — with a nil error; and when the file opens
but no line passes that test it returns the empty string with a nil error
(so the caller does not abort and proceeds with an empty module root). -/
theorem c9_module_line_fields (pre post : List String) (line : String)
    (hpre : ∀ l ∈ pre, isModuleLine l = false) :
    (isModuleLine line = true →
      readModuleName (some (pre ++ line :: post))
        = ((splitOnSpace line).getD 1 "", false)) ∧
    (isModuleLine line = false → (∀ l ∈ post, isModuleLine l = false) →
      readModuleName (some (pre ++ line :: post)) = ("", false)) := by
  constructor
  · intro hl
    simp [readModuleName, readModLoop_append_of_none pre (line :: post) hpre,
      readModLoop, hl]
  · intro hl hpost
    have hall : ∀ l ∈ (line :: post), isModuleLine l = false := by
      intro l hm
      rcases List.mem_cons.mp hm with h1 | h2
      · subst h1
        exact hl
      · exact hpost l h2
    simp [readModuleName, readModLoop_append_of_none pre (line :: post) hpre,
      readModLoop_none (line :: post) hall]

/-- Witness for C9's amended theorem: a comment line is skipped and the
module line `module example.com/m` yields `example.com/m` with nil error. -/
theorem c9_module_line_fields_witness :
    readModuleName (some (["// comment"] ++ "module example.com/m" :: ["go 1.16"]))
      = ((splitOnSpace "module example.com/m").getD 1 "", false) :=
  (c9_module_line_fields ["// comment"] ["go 1.16"] "module example.com/m"
    (by decide)).1 (by decide)

/-- C10: `writePlan` never hands a non-nil error back to `main`: every run
either terminates the process inside `writePlan` with exit code 100 (open or
write failure) or returns `nil` with the descriptor appended, so `main`'s
`failed to write the build plan` branch, guarded by a non-nil `writePlan`
result, is unreachable. -/
theorem c10_writePlan_never_errors (openOk writeOk : Bool)
    (existing : Option String) (proto : String) (deets : FunctionDetails) :
    returnsError (writePlan openOk writeOk existing proto deets) = false ∧
    (writePlan openOk writeOk existing proto deets = .exited 100 ∨
     writePlan openOk writeOk existing proto deets
       = .returned none ((existing.getD "") ++ renderedPlan proto deets)) := by
  cases openOk <;> cases writeOk <;> simp [writePlan, returnsError]

end BuildpackDetect
